import Mathlib

/- Verification of the DearJack audio engine core.

The development shallowly embeds the engine's data model and operations:
the oscillator DSP nodes (SinOsc, SquareWave, SawWave), the polyphonic
mixing node, the DSP factory registry, the thread-pool initialisation and
the JACK endpoint construction sequence.  C++ doubles/floats are modelled
as real numbers; `std::atomic` loads performed by the audio callback are
modelled either as plain state fields (one load per call site) or, where a
claim is about the number of loads, as an explicit stream of successive
load results.  Exceptions are modelled as explicit error results paired
with the (unchanged) object state. -/

namespace DearJack

/-- One worker thread spawned by `ThreadManager::init` (the thread object
itself carries no data relevant to the spawn-count behaviour). -/
structure Worker where
  deriving DecidableEq

/-- Embeds `ThreadManager::init(unsigned num_threads)`: the loop
`for (unsigned i = 0; i < num_threads; ++i) threads.emplace_back(worker_thread);`
producing the vector of spawned worker threads. -/
def ThreadManager.init (numThreads : Nat) : List Worker :=
  (List.range numThreads).map (fun _ => ⟨⟩)

/-- Oracle describing the JACK server's responses during `JackClient`
construction: whether `jack_client_open` succeeds, the return value of
`jack_set_process_callback`, the result of `jack_port_register` for each
requested port name (`none` models a NULL port handle), and the return
value of `jack_activate`. -/
structure JackServer where
  openOk : Bool
  setCallbackResult : Int
  registerPort : String → Option String
  activateResult : Int

/-- The port state of a fully constructed `JackClient`: the vectors
`input_ports` / `output_ports` as filled by the constructor.  A `none`
entry is a NULL port handle that was pushed without being checked. -/
structure JackEndpoint where
  inputPorts : List (Option String)
  outputPorts : List (Option String)
  deriving DecidableEq

/-- Outcome of running a `JackClient` constructor: either a constructed
endpoint, or a thrown exception together with whether `jack_client_close`
was called on the already-opened connection before throwing. -/
inductive BuildOutcome where
  | ok (e : JackEndpoint)
  | failed (msg : String) (connectionClosed : Bool)
  deriving DecidableEq

/-- Embeds the generic `JackClient::JackClient(const char*, std::unique_ptr<DSP>)`
constructor of `main.cpp` (lines 469-505): open the client, set the process
callback (closing and throwing on failure), register `numInputs` ports named
`input<i>` and `numOutputs` ports named `output<i>` — pushing each
`jack_port_register` result unchecked — then activate (closing and throwing
on failure). -/
def JackClient.construct (srv : JackServer) (numInputs numOutputs : Nat) : BuildOutcome :=
  if srv.openOk = false then .failed "Failed to open JACK client" false
  else if srv.setCallbackResult ≠ 0 then .failed "Failed to set JACK process callback" true
  else
    let inputPorts := (List.range numInputs).map (fun i => srv.registerPort ("input" ++ toString i))
    let outputPorts := (List.range numOutputs).map (fun i => srv.registerPort ("output" ++ toString i))
    if srv.activateResult ≠ 0 then .failed "Failed to activate JACK client" true
    else .ok ⟨inputPorts, outputPorts⟩

/-- Embeds the single-port prototype constructor `JackClient::JackClient(const char*)`
of `part_002` (lines 38-61): open the client, register one port named
`output`, and if the port handle is NULL, close the already-opened
connection and throw; then activate (closing and throwing on failure). -/
def JackClientSingle.construct (srv : JackServer) : BuildOutcome :=
  if srv.openOk = false then .failed "Failed to open JACK client" false
  else
    match srv.registerPort "output" with
    | none => .failed "Failed to register JACK port" true
    | some p =>
      if srv.activateResult ≠ 0 then .failed "Failed to activate JACK client" true
      else .ok ⟨[], [some p]⟩

/-- Concrete server oracle for which every requested operation succeeds and
`jack_port_register` returns a handle identifying the requested port name. -/
def echoServer : JackServer :=
  ⟨true, 0, fun nm => some nm, 0⟩

/-- Concrete server oracle for which open, callback setup and activation
succeed but every `jack_port_register` call fails (returns NULL). -/
def nullPortServer : JackServer :=
  ⟨true, 0, fun _ => none, 0⟩

/-- Embeds `DSPFactory::register_dsp`: `creators[name] = creator` on the
`unordered_map`, i.e. replace the entry with key `name` if present,
otherwise add a new entry. -/
def DSPFactory.registerDsp {α : Type} (creators : List (String × (Unit → α)))
    (name : String) (c : Unit → α) : List (String × (Unit → α)) :=
  if creators.any (fun kv => kv.1 == name) then
    creators.map (fun kv => if kv.1 == name then (name, c) else kv)
  else
    creators ++ [(name, c)]

/-- Embeds `DSPFactory::create_dsp`: look `name` up in `creators`; if an
entry is found, invoke its constructor closure, otherwise throw
`"Unknown DSP type: " + name`. -/
def DSPFactory.createDsp {α : Type} (creators : List (String × (Unit → α)))
    (name : String) : Except String α :=
  match creators.find? (fun kv => kv.1 == name) with
  | some kv => .ok (kv.2 ())
  | none => .error ("Unknown DSP type: " ++ name)

noncomputable section

/-- The constant `TWO_PI = 2.0 * M_PI` of the source. -/
def TWO_PI : ℝ := 2 * Real.pi

/-- Parameter value: the tagged union `std::variant<float, int, std::string>`. -/
inductive PValue where
  | float (x : ℝ)
  | int (n : ℤ)
  | str (s : String)

/-- Embeds `std::get<float>(value)`: yields the held float, or throws
`std::bad_variant_access` when the variant holds another alternative. -/
def getFloat : PValue → Except String ℝ
  | .float x => .ok x
  | _ => .error "bad_variant_access"

/-- State of a `SinOsc` node: `phase` (double), `frequency`
(`std::atomic<double>`) and `amplitude` (`std::atomic<float>`). -/
structure SinOscState where
  phase : ℝ
  frequency : ℝ
  amplitude : ℝ

/-- State of a `SquareWave` node: `phase` and `frequency`. -/
structure SquareWaveState where
  phase : ℝ
  frequency : ℝ

/-- State of a `SawWave` node: `phase` and `frequency`. -/
structure SawWaveState where
  phase : ℝ
  frequency : ℝ

/-- The per-sample phase update shared verbatim by all three oscillator
loops: `phase += phase_increment; if (phase >= TWO_PI) phase -= TWO_PI;`. -/
def oscStep (inc p : ℝ) : ℝ :=
  if TWO_PI ≤ p + inc then p + inc - TWO_PI else p + inc

/-- The oscillator sample loop
`for (i = 0; i < nframes; ++i) { outputs[0][i] = sample(phase); <phase update> }`,
returning the written output buffer and the final phase.  `sample` is the
per-variant output expression. -/
def oscLoop (sample : ℝ → ℝ) (inc : ℝ) : Nat → ℝ → List ℝ × ℝ
  | 0, p => ([], p)
  | n + 1, p =>
    let r := oscLoop sample inc n (oscStep inc p)
    (sample p :: r.1, r.2)

/-- The same sample loop expressed as a transformation of the output
buffer it writes into: `nframes` equals the buffer length, and each slot's
previous content is overwritten by plain assignment (`outputs[0][i] = ...`). -/
def oscLoopWrite (sample : ℝ → ℝ) (inc : ℝ) : List ℝ → ℝ → List ℝ × ℝ
  | [], p => ([], p)
  | _ :: rest, p =>
    let r := oscLoopWrite sample inc rest (oscStep inc p)
    (sample p :: r.1, r.2)

/-- Embeds `SinOsc::process_audio` (`main.cpp` lines 251-266): read
`frequency` and `amplitude` once, compute
`phase_increment = TWO_PI * frequency / sample_rate`, then render
`amp * std::sin(phase)` per sample with the shared phase update. -/
def SinOsc.processAudio (s : SinOscState) (sampleRate : ℝ) (nframes : Nat) :
    List ℝ × SinOscState :=
  let inc := TWO_PI * s.frequency / sampleRate
  let amp := s.amplitude
  let r := oscLoop (fun p => amp * Real.sin p) inc nframes s.phase
  (r.1, { s with phase := r.2 })

/-- Embeds `SinOsc::process_audio` writing into a caller-supplied output
buffer (as when the node is a voice of `PolyphonicDSP`): every slot of the
buffer is overwritten with the rendered sample. -/
def SinOsc.processAudioInto (s : SinOscState) (sampleRate : ℝ) (buf : List ℝ) :
    List ℝ × SinOscState :=
  let inc := TWO_PI * s.frequency / sampleRate
  let amp := s.amplitude
  let r := oscLoopWrite (fun p => amp * Real.sin p) inc buf s.phase
  (r.1, { s with phase := r.2 })

/-- Embeds `SquareWave::process_audio` (`part_002` lines 304-314): render
`(phase < M_PI) ? 1.0f : -1.0f` per sample with the shared phase update. -/
def SquareWave.processAudio (s : SquareWaveState) (sampleRate : ℝ) (nframes : Nat) :
    List ℝ × SquareWaveState :=
  let inc := TWO_PI * s.frequency / sampleRate
  let r := oscLoop (fun p => if p < Real.pi then (1 : ℝ) else -1) inc nframes s.phase
  (r.1, { s with phase := r.2 })

/-- Embeds `SawWave::process_audio` (`part_002` lines 349-359): render
`2.0f * (phase / TWO_PI) - 1.0f` per sample with the shared phase update. -/
def SawWave.processAudio (s : SawWaveState) (sampleRate : ℝ) (nframes : Nat) :
    List ℝ × SawWaveState :=
  let inc := TWO_PI * s.frequency / sampleRate
  let r := oscLoop (fun p => 2 * (p / TWO_PI) - 1) inc nframes s.phase
  (r.1, { s with phase := r.2 })

/-- Embeds `SinOsc::process_audio` with the successive results of the
`std::atomic` loads made explicit: `freqLoads k` (resp. `ampLoads k`) is the
value the `k`-th `frequency.load()` (resp. `amplitude.load()`) of the call
would observe.  The source performs exactly one load of each, before the
sample loop, so only index `0` is consumed. -/
def SinOsc.processAudioLoads (freqLoads ampLoads : Nat → ℝ) (phase sampleRate : ℝ)
    (nframes : Nat) : List ℝ × ℝ :=
  let inc := TWO_PI * freqLoads 0 / sampleRate
  let amp := ampLoads 0
  oscLoop (fun p => amp * Real.sin p) inc nframes phase

/-- Reference render following the spec's words (§5, §8.7): the whole
buffer is computed from a single frequency/amplitude snapshot, i.e. one
phase-increment value throughout. -/
def specSingleSnapshotRender (freq amp phase sampleRate : ℝ) (nframes : Nat) :
    List ℝ × ℝ :=
  oscLoop (fun p => amp * Real.sin p) (TWO_PI * freq / sampleRate) nframes phase

/-- Embeds `PolyphonicDSP::process_audio` (`main.cpp` lines 349-364) with
`SinOsc` voices (the variant wired up by `main`): a single scratch vector
`mixed_output(nframes, 0.0f)` is handed to every voice in turn as its
output buffer, and afterwards `outputs[0][i] = mixed_output[i]` copies it
to the public output.  Returns the public output and the updated voices. -/
def PolyphonicDSP.processAudio (voices : List SinOscState) (sampleRate : ℝ)
    (nframes : Nat) : List ℝ × List SinOscState :=
  let mixed0 : List ℝ := List.replicate nframes 0
  voices.foldl
    (fun acc v =>
      let r := SinOsc.processAudioInto v sampleRate acc.1
      (r.1, acc.2 ++ [r.2]))
    (mixed0, ([] : List SinOscState))

/-- Reference mix following the spec's words (§4.3 and claim C1): each
voice renders into its own private zero-initialised scratch buffer, and
the node's public output is the sample-wise sum of the per-voice buffers. -/
def specPolyMixedOutput (voices : List SinOscState) (sampleRate : ℝ)
    (nframes : Nat) : List ℝ :=
  voices.foldl
    (fun acc v =>
      List.zipWith (· + ·) acc (SinOsc.processAudioInto v sampleRate (List.replicate nframes 0)).1)
    (List.replicate nframes 0)

/-- Embeds `SinOsc::set_parameter` of the variant-valued interface
(`main.cpp` lines 229-236): on `"frequency"`/`"amplitude"` store
`std::get<float>(value)` — a thrown `bad_variant_access` leaves the object
unchanged and propagates (`some error`); any other name falls through as a
no-op. -/
def SinOsc.setParameter (s : SinOscState) (name : String) (v : PValue) :
    SinOscState × Option String :=
  if name = "frequency" then
    match getFloat v with
    | .ok x => ({ s with frequency := x }, none)
    | .error e => (s, some e)
  else if name = "amplitude" then
    match getFloat v with
    | .ok x => ({ s with amplitude := x }, none)
    | .error e => (s, some e)
  else (s, none)

/-- Embeds `SinOsc::get_parameter` of the variant-valued interface
(`main.cpp` lines 238-245): return the stored float for a known name,
otherwise throw `"Unknown parameter: " + name`. -/
def SinOsc.getParameter (s : SinOscState) (name : String) : Except String PValue :=
  if name = "frequency" then .ok (.float s.frequency)
  else if name = "amplitude" then .ok (.float s.amplitude)
  else .error ("Unknown parameter: " ++ name)

/-- Embeds `SquareWave::set_parameter` (`part_002`): only `"frequency"` is
stored; other names are a no-op. -/
def SquareWave.setParameter (s : SquareWaveState) (name : String) (v : PValue) :
    SquareWaveState × Option String :=
  if name = "frequency" then
    match getFloat v with
    | .ok x => ({ s with frequency := x }, none)
    | .error e => (s, some e)
  else (s, none)

/-- Embeds `SquareWave::get_parameter` (`part_002`). -/
def SquareWave.getParameter (s : SquareWaveState) (name : String) :
    Except String PValue :=
  if name = "frequency" then .ok (.float s.frequency)
  else .error ("Unknown parameter: " ++ name)

/-- Embeds `SawWave::set_parameter` (`part_002`). -/
def SawWave.setParameter (s : SawWaveState) (name : String) (v : PValue) :
    SawWaveState × Option String :=
  if name = "frequency" then
    match getFloat v with
    | .ok x => ({ s with frequency := x }, none)
    | .error e => (s, some e)
  else (s, none)

/-- Embeds `SawWave::get_parameter` (`part_002`). -/
def SawWave.getParameter (s : SawWaveState) (name : String) :
    Except String PValue :=
  if name = "frequency" then .ok (.float s.frequency)
  else .error ("Unknown parameter: " ++ name)

/-- Embeds `SinOsc::set_parameter` of the float-valued interface of the
`part_001` iteration (lines 44-50): store the float under a known name,
silently ignore an unknown name. -/
def SinOscFloat.setParameter (s : SinOscState) (name : String) (v : ℝ) :
    SinOscState :=
  if name = "frequency" then { s with frequency := v }
  else if name = "amplitude" then { s with amplitude := v }
  else s

/-- Embeds `SinOsc::get_parameter` of the float-valued interface of the
`part_001` iteration (lines 52-59): return the stored float for a known
name, and return `0.0f` — not an error — for an unknown name. -/
def SinOscFloat.getParameter (s : SinOscState) (name : String) : ℝ :=
  if name = "frequency" then s.frequency
  else if name = "amplitude" then s.amplitude
  else 0

/-- Embeds `PolyphonicDSP::set_parameter` (`main.cpp` lines 331-337) with
`SinOsc` voices: fan the write out to every voice in order; an exception
thrown by a voice's `set_parameter` aborts the loop, leaving the remaining
voices untouched. -/
def PolyphonicDSP.setParameter (voices : List SinOscState) (name : String)
    (v : PValue) : List SinOscState × Option String :=
  match voices with
  | [] => ([], none)
  | w :: rest =>
    let r := SinOsc.setParameter w name v
    match r.2 with
    | some e => (r.1 :: rest, some e)
    | none =>
      let rr := PolyphonicDSP.setParameter rest name v
      (r.1 :: rr.1, rr.2)

/-- Embeds `PolyphonicDSP::get_parameter` (`main.cpp` lines 339-342):
delegate to `voices[0]` (indexing an empty voice vector is undefined
behaviour in the source; it is modelled as an error). -/
def PolyphonicDSP.getParameter (voices : List SinOscState) (name : String) :
    Except String PValue :=
  match voices with
  | w :: _ => SinOsc.getParameter w name
  | [] => .error "voices[0] on an empty voice vector (undefined behavior)"

end

/-- Replacing the (present) entry for `name` in the creator map makes the
subsequent lookup of `name` find exactly the new entry. -/
theorem find?_map_replace {α : Type} (name : String) (c : Unit → α) :
    ∀ l : List (String × (Unit → α)), l.any (fun kv => kv.1 == name) = true →
      (l.map (fun kv => if kv.1 == name then (name, c) else kv)).find?
        (fun kv => kv.1 == name) = some (name, c) := by
  intro l
  induction l with
  | nil => simp
  | cons kv rest ih =>
    intro hany
    by_cases h : (kv.1 == name) = true
    · rw [List.map_cons, if_pos h, List.find?_cons_of_pos _ (by simp)]
    · have hf : (kv.1 == name) = false := by simpa using h
      rw [List.map_cons, if_neg h, List.find?_cons_of_neg _ (by simp [hf])]
      apply ih
      simpa [List.any_cons, hf] using hany

/-- Appending a fresh entry for an absent `name` to the creator map makes
the subsequent lookup of `name` find exactly that entry. -/
theorem find?_append_new {α : Type} (name : String) (c : Unit → α) :
    ∀ l : List (String × (Unit → α)), l.any (fun kv => kv.1 == name) = false →
      (l ++ [(name, c)]).find? (fun kv => kv.1 == name) = some (name, c) := by
  intro l
  induction l with
  | nil =>
    intro _
    rw [List.nil_append, List.find?_cons_of_pos _ (by simp)]
  | cons kv rest ih =>
    intro hany
    rw [List.any_cons, Bool.or_eq_false_iff] at hany
    rw [List.cons_append, List.find?_cons_of_neg _ (by simp [hany.1])]
    exact ih hany.2

/-- After `register_dsp(name, c)`, looking `name` up in the creator map
finds exactly the entry `(name, c)`. -/
theorem registerDsp_find {α : Type} (name : String) (c : Unit → α)
    (l : List (String × (Unit → α))) :
    (DSPFactory.registerDsp l name c).find? (fun kv => kv.1 == name) = some (name, c) := by
  unfold DSPFactory.registerDsp
  by_cases ha : l.any (fun kv => kv.1 == name) = true
  · rw [if_pos ha]
    exact find?_map_replace name c l ha
  · rw [if_neg ha]
    exact find?_append_new name c l (Bool.eq_false_iff.mpr ha)

/-- TWO_PI is positive. -/
theorem two_pi_pos : (0 : ℝ) < TWO_PI := by
  unfold TWO_PI
  linarith [Real.pi_pos]

/-- The shared per-sample phase update keeps the phase in `[0, 2π)` as
long as the increment lies in `[0, 2π]`. -/
theorem oscStep_mem (inc p : ℝ) (h0 : 0 ≤ inc) (h2 : inc ≤ TWO_PI)
    (hp0 : 0 ≤ p) (hp2 : p < TWO_PI) :
    0 ≤ oscStep inc p ∧ oscStep inc p < TWO_PI := by
  unfold oscStep
  split_ifs with h
  · exact ⟨by linarith, by linarith⟩
  · push_neg at h
    exact ⟨by linarith, by linarith⟩

/-- The phase left behind by the oscillator sample loop stays in `[0, 2π)`
when the increment lies in `[0, 2π]` and the starting phase is in range. -/
theorem oscLoop_phase_mem (sample : ℝ → ℝ) (inc : ℝ) (h0 : 0 ≤ inc)
    (h2 : inc ≤ TWO_PI) :
    ∀ (n : Nat) (p : ℝ), 0 ≤ p → p < TWO_PI →
      0 ≤ (oscLoop sample inc n p).2 ∧ (oscLoop sample inc n p).2 < TWO_PI := by
  intro n
  induction n with
  | zero =>
    intro p hp0 hp2
    simpa [oscLoop] using ⟨hp0, hp2⟩
  | succ n ih =>
    intro p hp0 hp2
    have hs := oscStep_mem inc p h0 h2 hp0 hp2
    simpa [oscLoop] using ih (oscStep inc p) hs.1 hs.2

/-- Every sample value produced by the oscillator loop satisfies any
predicate that the per-sample output expression satisfies on in-range
phases, provided the increment keeps the phase in range. -/
theorem oscLoop_out_mem {P : ℝ → Prop} (sample : ℝ → ℝ) (inc : ℝ)
    (h0 : 0 ≤ inc) (h2 : inc ≤ TWO_PI)
    (hout : ∀ p, 0 ≤ p → p < TWO_PI → P (sample p)) :
    ∀ (n : Nat) (p : ℝ), 0 ≤ p → p < TWO_PI →
      ∀ x ∈ (oscLoop sample inc n p).1, P x := by
  intro n
  induction n with
  | zero =>
    intro p _ _ x hx
    simp [oscLoop] at hx
  | succ n ih =>
    intro p hp0 hp2 x hx
    simp only [oscLoop, List.mem_cons] at hx
    rcases hx with hx | hx
    · exact hx ▸ hout p hp0 hp2
    · have hs := oscStep_mem inc p h0 h2 hp0 hp2
      exact ih (oscStep inc p) hs.1 hs.2 x hx

/-- Every sample value produced by the oscillator loop satisfies any
predicate that the per-sample output expression satisfies on all phases. -/
theorem oscLoop_out_forall {P : ℝ → Prop} (sample : ℝ → ℝ) (inc : ℝ)
    (hout : ∀ p, P (sample p)) :
    ∀ (n : Nat) (p : ℝ), ∀ x ∈ (oscLoop sample inc n p).1, P x := by
  intro n
  induction n with
  | zero =>
    intro p x hx
    simp [oscLoop] at hx
  | succ n ih =>
    intro p x hx
    simp only [oscLoop, List.mem_cons] at hx
    rcases hx with hx | hx
    · exact hx ▸ hout p
    · exact ih (oscStep inc p) x hx

/-- The phase increment `TWO_PI * frequency / sample_rate` lies in
`[0, 2π]` whenever `0 ≤ frequency ≤ sample_rate` and the rate is positive. -/
theorem inc_bounds (f sr : ℝ) (hsr : 0 < sr) (hf0 : 0 ≤ f) (hfs : f ≤ sr) :
    0 ≤ TWO_PI * f / sr ∧ TWO_PI * f / sr ≤ TWO_PI := by
  have h2 := two_pi_pos
  constructor
  · exact div_nonneg (mul_nonneg h2.le hf0) hsr.le
  · rw [div_le_iff₀ hsr]
    exact mul_le_mul_of_nonneg_left hfs h2.le

/-- One phase step from 0 with frequency 3 at sample rate 1 lands on `4π`:
the single conditional subtraction cannot wrap an increment of `6π` back
into `[0, 2π)`. -/
theorem oscStep_freq3_sr1 : oscStep (TWO_PI * 3 / 1) 0 = 4 * Real.pi := by
  have hπ := Real.pi_pos
  unfold oscStep TWO_PI
  rw [if_pos (by linarith)]
  ring

/-- C2 (counterexample): requesting zero threads spawns zero workers, not
`max(thread_count, 1) = 1` — `ThreadManager::init` has no ≥ 1 fallback. -/
theorem threadManager_init_zero_spawns_none :
    (ThreadManager.init 0).length ≠ max 0 1 := by
  decide

/-- C2 (amended): `ThreadManager::init(thread_count)` spawns exactly
`thread_count` worker threads; in particular, when zero threads are
requested, no worker is spawned. -/
theorem threadManager_init_spawns_exactly_requested (n : Nat) :
    (ThreadManager.init n).length = n := by
  simp [ThreadManager.init]

/-- C3: the generic `JackClient` constructor requests one port per DSP
input and one per output, named `input<i>` / `output<i>` (first conjunct),
but it never checks the result of `jack_port_register`: when every port
allocation fails it still completes construction, storing NULL port
handles, instead of failing and releasing the connection (second
conjunct).  The earlier single-port prototype constructor does implement
the claimed handling: it fails and closes the already-opened connection
(third conjunct). -/
theorem jackClient_null_port_does_not_fail_construction :
    JackClient.construct echoServer 2 2 =
      .ok ⟨[some "input0", some "input1"], [some "output0", some "output1"]⟩
    ∧ JackClient.construct nullPortServer 0 1 = .ok ⟨[], [none]⟩
    ∧ JackClientSingle.construct nullPortServer =
        .failed "Failed to register JACK port" true := by
  refine ⟨?_, ?_, ?_⟩ <;> rfl

/-- C7: `DSPFactory::create_dsp` fails with an unknown-type error for every
name that was never registered — never returning a constructed node — and
for a registered name it returns the node freshly constructed by that
name's registered creator. -/
theorem createDsp_unknown_fails_registered_constructs {α : Type}
    (creators : List (String × (Unit → α))) (name : String) :
    ((∀ kv ∈ creators, kv.1 ≠ name) →
      DSPFactory.createDsp creators name = .error ("Unknown DSP type: " ++ name)
      ∧ ∀ x : α, DSPFactory.createDsp creators name ≠ .ok x)
    ∧ ∀ c : Unit → α,
      DSPFactory.createDsp (DSPFactory.registerDsp creators name c) name = .ok (c ()) := by
  constructor
  · intro h
    have hnone : creators.find? (fun kv => kv.1 == name) = none := by
      rw [List.find?_eq_none]
      intro kv hkv
      simpa using h kv hkv
    constructor
    · simp [DSPFactory.createDsp, hnone]
    · intro x
      simp [DSPFactory.createDsp, hnone]
  · intro c
    simp [DSPFactory.createDsp, registerDsp_find]

/-- C7 (witness): on a concrete one-entry registry, creating an
unregistered name fails with the unknown-type error (and is not `ok`),
while creating a freshly registered name yields its creator's node. -/
theorem createDsp_unknown_fails_registered_constructs_witness :
    (∀ kv ∈ [("SinOsc", fun _ : Unit => (7 : Nat))], kv.1 ≠ "DoesNotExist")
    ∧ DSPFactory.createDsp [("SinOsc", fun _ : Unit => (7 : Nat))] "DoesNotExist" =
        .error ("Unknown DSP type: " ++ "DoesNotExist")
    ∧ DSPFactory.createDsp
        (DSPFactory.registerDsp ([] : List (String × (Unit → Nat))) "SinOsc" (fun _ => 7))
        "SinOsc" = .ok 7 :=
  ⟨by decide,
   ((createDsp_unknown_fails_registered_constructs
      [("SinOsc", fun _ : Unit => (7 : Nat))] "DoesNotExist").1 (by decide)).1,
   (createDsp_unknown_fails_registered_constructs
      ([] : List (String × (Unit → Nat))) "SinOsc").2 (fun _ => 7)⟩

/-- C9: for every supported parameter name of every node variant, setting
a (float-typed) value and then getting it returns exactly that value —
for the variant-valued `SinOsc`, `SquareWave` and `SawWave` interfaces,
for the float-valued `part_001` `SinOsc` interface, and for a
`PolyphonicDSP` node with at least one voice. -/
theorem parameter_roundtrip (s : SinOscState) (sq : SquareWaveState)
    (sw : SawWaveState) (w : SinOscState) (rest : List SinOscState) (v x : ℝ) :
    SinOsc.getParameter (SinOsc.setParameter s "frequency" (.float v)).1 "frequency" =
      .ok (.float v)
    ∧ SinOsc.getParameter (SinOsc.setParameter s "amplitude" (.float v)).1 "amplitude" =
      .ok (.float v)
    ∧ SquareWave.getParameter (SquareWave.setParameter sq "frequency" (.float v)).1
        "frequency" = .ok (.float v)
    ∧ SawWave.getParameter (SawWave.setParameter sw "frequency" (.float v)).1
        "frequency" = .ok (.float v)
    ∧ SinOscFloat.getParameter (SinOscFloat.setParameter s "frequency" x) "frequency" = x
    ∧ SinOscFloat.getParameter (SinOscFloat.setParameter s "amplitude" x) "amplitude" = x
    ∧ PolyphonicDSP.getParameter
        (PolyphonicDSP.setParameter (w :: rest) "frequency" (.float v)).1 "frequency" =
      .ok (.float v)
    ∧ PolyphonicDSP.getParameter
        (PolyphonicDSP.setParameter (w :: rest) "amplitude" (.float v)).1 "amplitude" =
      .ok (.float v) :=
  ⟨rfl, rfl, rfl, rfl, rfl, rfl, rfl, rfl⟩

/-- C10: calling the variant-valued `SinOsc::set_parameter` with a
supported name but an int- or text-holding value stores nothing: the
`std::get<float>` failure is signalled (`bad_variant_access`) and the
node's state is returned unchanged. -/
theorem set_wrong_variant_signals_error_state_unchanged (s : SinOscState)
    (n : ℤ) (t : String) :
    SinOsc.setParameter s "frequency" (.int n) = (s, some "bad_variant_access")
    ∧ SinOsc.setParameter s "frequency" (.str t) = (s, some "bad_variant_access")
    ∧ SinOsc.setParameter s "amplitude" (.int n) = (s, some "bad_variant_access")
    ∧ SinOsc.setParameter s "amplitude" (.str t) = (s, some "bad_variant_access") :=
  ⟨rfl, rfl, rfl, rfl⟩

/-- A unit-amplitude, frequency-1 `SinOsc` voice rendered at sample rate 4
writes `[0, 1]` into any 2-slot output buffer, regardless of the buffer's
previous contents (the loop assigns, never accumulates). -/
theorem sinosc_unit_voice_render (a b : ℝ) :
    (SinOsc.processAudioInto ⟨0, 1, 1⟩ 4 [a, b]).1 = [0, 1] := by
  have h1 : (SinOsc.processAudioInto ⟨0, 1, 1⟩ 4 [a, b]).1
      = [1 * Real.sin 0, 1 * Real.sin (oscStep (TWO_PI * 1 / 4) 0)] := rfl
  have hstep : oscStep (TWO_PI * 1 / 4) 0 = Real.pi / 2 := by
    have hπ := Real.pi_pos
    unfold oscStep TWO_PI
    rw [if_neg (by intro hcon; linarith)]
    ring
  rw [h1, hstep, Real.sin_pi_div_two, Real.sin_zero]
  norm_num

/-- C1: `PolyphonicDSP::process_audio` does NOT render each voice into a
private scratch buffer and sum: it hands the single shared `mixed_output`
vector to every voice, and each voice's `process_audio` overwrites it, so
the public output equals the last voice's render.  With two identical
unit-amplitude voices at frequency 1, sample rate 4 and 2 frames, the code
produces `[0, 1]` (one voice's render), while the claimed sum of the two
individually rendered outputs is `[0, 2]`. -/
theorem polyphonic_output_not_sum_of_voices :
    (PolyphonicDSP.processAudio [⟨0, 1, 1⟩, ⟨0, 1, 1⟩] 4 2).1 = [0, 1]
    ∧ specPolyMixedOutput [⟨0, 1, 1⟩, ⟨0, 1, 1⟩] 4 2 = [0, 2]
    ∧ (PolyphonicDSP.processAudio [⟨0, 1, 1⟩, ⟨0, 1, 1⟩] 4 2).1
      ≠ specPolyMixedOutput [⟨0, 1, 1⟩, ⟨0, 1, 1⟩] 4 2 := by
  have hv00 := sinosc_unit_voice_render 0 0
  have hv01 := sinosc_unit_voice_render 0 1
  have hpoly : (PolyphonicDSP.processAudio [⟨0, 1, 1⟩, ⟨0, 1, 1⟩] 4 2).1 = [0, 1] := by
    have hfold : (PolyphonicDSP.processAudio [⟨0, 1, 1⟩, ⟨0, 1, 1⟩] 4 2).1
        = (SinOsc.processAudioInto ⟨0, 1, 1⟩ 4
            ((SinOsc.processAudioInto ⟨0, 1, 1⟩ 4 [0, 0]).1)).1 := rfl
    rw [hfold, hv00, hv01]
  have hspec : specPolyMixedOutput [⟨0, 1, 1⟩, ⟨0, 1, 1⟩] 4 2 = [0, 2] := by
    have hunf : specPolyMixedOutput [⟨0, 1, 1⟩, ⟨0, 1, 1⟩] 4 2
        = List.zipWith (· + ·)
            (List.zipWith (· + ·) [0, 0] ((SinOsc.processAudioInto ⟨0, 1, 1⟩ 4 [0, 0]).1))
            ((SinOsc.processAudioInto ⟨0, 1, 1⟩ 4 [0, 0]).1) := rfl
    rw [hunf, hv00]
    norm_num
  refine ⟨hpoly, hspec, ?_⟩
  rw [hpoly, hspec]
  norm_num

/-- C4 (counterexample): with frequency 3 at sample rate 1 the phase
increment is `6π`; starting from phase `0 ∈ [0, 2π)`, one processed sample
leaves the phase at `4π ∉ [0, 2π)` — the single conditional subtraction
does not keep the accumulator wrapped for every frequency/sample-rate. -/
theorem sinosc_phase_escapes_counterexample :
    (0 : ℝ) ≤ 0 ∧ (0 : ℝ) < TWO_PI
    ∧ ¬ (((SinOsc.processAudio ⟨0, 3, 1⟩ 1 1).2).phase < TWO_PI) := by
  have hπ := Real.pi_pos
  have h1 : ((SinOsc.processAudio ⟨0, 3, 1⟩ 1 1).2).phase
      = oscStep (TWO_PI * 3 / 1) 0 := rfl
  refine ⟨le_refl 0, two_pi_pos, ?_⟩
  rw [h1, oscStep_freq3_sr1]
  unfold TWO_PI
  intro hcon
  linarith

/-- C4 (amended): for each oscillator variant (Sine, Square, Saw), if the
sample rate is positive, `0 ≤ frequency ≤ sample_rate` (so the per-sample
increment `2π·frequency/sample_rate` lies in `[0, 2π]`) and the phase is
in `[0, 2π)` before the call, then the phase is in `[0, 2π)` after the
call — and, since the `n`-frame call passes through exactly the phases
left by every shorter call, after every sample of the call. -/
theorem phase_wrapped_when_increment_bounded (phase freq amp sr : ℝ) (n : Nat)
    (hsr : 0 < sr) (hf0 : 0 ≤ freq) (hfs : freq ≤ sr)
    (hp0 : 0 ≤ phase) (hp2 : phase < TWO_PI) :
    (0 ≤ ((SinOsc.processAudio ⟨phase, freq, amp⟩ sr n).2).phase
      ∧ ((SinOsc.processAudio ⟨phase, freq, amp⟩ sr n).2).phase < TWO_PI)
    ∧ (0 ≤ ((SquareWave.processAudio ⟨phase, freq⟩ sr n).2).phase
      ∧ ((SquareWave.processAudio ⟨phase, freq⟩ sr n).2).phase < TWO_PI)
    ∧ (0 ≤ ((SawWave.processAudio ⟨phase, freq⟩ sr n).2).phase
      ∧ ((SawWave.processAudio ⟨phase, freq⟩ sr n).2).phase < TWO_PI) := by
  have hinc := inc_bounds freq sr hsr hf0 hfs
  refine ⟨?_, ?_, ?_⟩
  · simpa [SinOsc.processAudio]
      using oscLoop_phase_mem _ _ hinc.1 hinc.2 n phase hp0 hp2
  · simpa [SquareWave.processAudio]
      using oscLoop_phase_mem _ _ hinc.1 hinc.2 n phase hp0 hp2
  · simpa [SawWave.processAudio]
      using oscLoop_phase_mem _ _ hinc.1 hinc.2 n phase hp0 hp2

/-- C4 (witness): at phase 0, frequency 1, sample rate 4 and 2 frames, the
hypotheses hold and all three oscillators leave their phase in `[0, 2π)`. -/
theorem phase_wrapped_when_increment_bounded_witness :
    ((0 : ℝ) < 4 ∧ (0 : ℝ) ≤ 1 ∧ (1 : ℝ) ≤ 4 ∧ (0 : ℝ) ≤ 0 ∧ (0 : ℝ) < TWO_PI)
    ∧ ((0 ≤ ((SinOsc.processAudio ⟨0, 1, 1⟩ 4 2).2).phase
      ∧ ((SinOsc.processAudio ⟨0, 1, 1⟩ 4 2).2).phase < TWO_PI)
    ∧ (0 ≤ ((SquareWave.processAudio ⟨0, 1⟩ 4 2).2).phase
      ∧ ((SquareWave.processAudio ⟨0, 1⟩ 4 2).2).phase < TWO_PI)
    ∧ (0 ≤ ((SawWave.processAudio ⟨0, 1⟩ 4 2).2).phase
      ∧ ((SawWave.processAudio ⟨0, 1⟩ 4 2).2).phase < TWO_PI)) :=
  ⟨⟨by norm_num, by norm_num, by norm_num, le_refl 0, two_pi_pos⟩,
   phase_wrapped_when_increment_bounded 0 1 1 4 2 (by norm_num) (by norm_num)
     (by norm_num) (le_refl 0) two_pi_pos⟩

/-- C5: the buffer rendered by `SinOsc::process_audio` depends only on the
first (and only) `frequency.load()` / `amplitude.load()` result of the
call: any two load streams agreeing at index 0 render identically, and the
render equals the reference computed from that single snapshot — the
buffer never mixes two phase-increment values. -/
theorem render_uses_single_parameter_snapshot (fL fL' aL aL' : Nat → ℝ)
    (phase sr : ℝ) (n : Nat) (hf : fL 0 = fL' 0) (ha : aL 0 = aL' 0) :
    SinOsc.processAudioLoads fL aL phase sr n
      = SinOsc.processAudioLoads fL' aL' phase sr n
    ∧ SinOsc.processAudioLoads fL aL phase sr n
      = specSingleSnapshotRender (fL 0) (aL 0) phase sr n := by
  unfold SinOsc.processAudioLoads specSingleSnapshotRender
  rw [hf, ha]
  exact ⟨rfl, rfl⟩

/-- C5 (witness): a load stream whose later loads would observe 880
renders identically to the constant-440 stream, and equals the
single-snapshot reference at 440. -/
theorem render_uses_single_parameter_snapshot_witness :
    ((fun k => if k = 0 then (440 : ℝ) else 880) 0 = (fun _ => (440 : ℝ)) 0)
    ∧ ((fun _ => (1 : ℝ)) 0 = (fun _ => (1 : ℝ)) 0)
    ∧ SinOsc.processAudioLoads (fun k => if k = 0 then (440 : ℝ) else 880)
        (fun _ => 1) 0 48000 3
      = SinOsc.processAudioLoads (fun _ => (440 : ℝ)) (fun _ => (1 : ℝ)) 0 48000 3
    ∧ SinOsc.processAudioLoads (fun k => if k = 0 then (440 : ℝ) else 880)
        (fun _ => 1) 0 48000 3
      = specSingleSnapshotRender ((fun k => if k = 0 then (440 : ℝ) else 880) 0)
          ((fun _ => (1 : ℝ)) 0) 0 48000 3 := by
  have h := render_uses_single_parameter_snapshot
      (fun k => if k = 0 then (440 : ℝ) else 880) (fun _ => (440 : ℝ))
      (fun _ => (1 : ℝ)) (fun _ => (1 : ℝ)) 0 48000 3 (by norm_num) rfl
  exact ⟨by norm_num, rfl, h.1, h.2⟩

/-- C6 (counterexample): in the `part_001` iteration, `get_parameter` on
the unknown name `"detune"` does not signal an error: it silently returns
the fallback value `0.0f` through its plain-float return type. -/
theorem float_api_get_unknown_returns_zero :
    SinOscFloat.getParameter ⟨0, 440, 1/2⟩ "detune" = 0 := by
  unfold SinOscFloat.getParameter
  rw [if_neg (by decide), if_neg (by decide)]

/-- C6 (amended): for every name outside the parameter set, the
variant-valued `SinOsc` interface (`main.cpp`) throws an unknown-parameter
error on get and is a state-preserving no-op on set, while the
float-valued `part_001` interface silently returns `0.0` on get (no error
is signalled) and is likewise a state-preserving no-op on set. -/
theorem unknown_parameter_get_errors_set_noop (s : SinOscState) (name : String)
    (v : PValue) (x : ℝ) (h1 : name ≠ "frequency") (h2 : name ≠ "amplitude") :
    SinOsc.getParameter s name = .error ("Unknown parameter: " ++ name)
    ∧ SinOsc.setParameter s name v = (s, none)
    ∧ SinOscFloat.getParameter s name = 0
    ∧ SinOscFloat.setParameter s name x = s := by
  refine ⟨?_, ?_, ?_, ?_⟩ <;>
    simp [SinOsc.getParameter, SinOsc.setParameter, SinOscFloat.getParameter,
      SinOscFloat.setParameter, h1, h2]

/-- C6 (witness): the unknown name `"detune"` satisfies the hypotheses and
exhibits all four behaviours on a concrete node state. -/
theorem unknown_parameter_get_errors_set_noop_witness :
    ("detune" ≠ "frequency") ∧ ("detune" ≠ "amplitude")
    ∧ (SinOsc.getParameter ⟨0, 440, 1/2⟩ "detune"
        = .error ("Unknown parameter: " ++ "detune")
      ∧ SinOsc.setParameter ⟨0, 440, 1/2⟩ "detune" (.int 3) = (⟨0, 440, 1/2⟩, none)
      ∧ SinOscFloat.getParameter ⟨0, 440, 1/2⟩ "detune" = 0
      ∧ SinOscFloat.setParameter ⟨0, 440, 1/2⟩ "detune" 7 = ⟨0, 440, 1/2⟩) :=
  ⟨by decide, by decide,
   unknown_parameter_get_errors_set_noop ⟨0, 440, 1/2⟩ "detune" (.int 3) 7
     (by decide) (by decide)⟩

/-- C8 (counterexample): a Saw node at frequency 3 and sample rate 1,
starting from the in-range phase 0, produces the sample
`2·(4π/2π) − 1 = 3 ∉ [−1, 1]` at the second frame: the range claim fails
for arbitrary frequency/sample-rate combinations. -/
theorem saw_output_escapes_range_counterexample :
    ¬ (∀ x ∈ (SawWave.processAudio ⟨0, 3⟩ 1 2).1, -1 ≤ x ∧ x ≤ 1) := by
  have hπ := Real.pi_pos
  have hlist : (SawWave.processAudio ⟨0, 3⟩ 1 2).1
      = [2 * ((0 : ℝ) / TWO_PI) - 1,
         2 * (oscStep (TWO_PI * 3 / 1) 0 / TWO_PI) - 1] := rfl
  intro h
  have hmem : (2 * ((4 * Real.pi) / TWO_PI) - 1) ∈ (SawWave.processAudio ⟨0, 3⟩ 1 2).1 := by
    rw [hlist, oscStep_freq3_sr1]
    simp
  have hval : 2 * ((4 * Real.pi) / TWO_PI) - 1 = 3 := by
    unfold TWO_PI
    field_simp
    ring
  have h3 := (h _ hmem).2
  rw [hval] at h3
  linarith

/-- C8 (amended): every sample of a Square node is exactly `+1` or `−1`,
for any phase, frequency and sample rate; every sample of a Saw node lies
in `[−1, +1]` provided the sample rate is positive,
`0 ≤ frequency ≤ sample_rate` and the starting phase is in `[0, 2π)`. -/
theorem square_saw_output_range (phase freq sr : ℝ) (n : Nat) :
    (∀ x ∈ (SquareWave.processAudio ⟨phase, freq⟩ sr n).1, x = 1 ∨ x = -1)
    ∧ (0 < sr → 0 ≤ freq → freq ≤ sr → 0 ≤ phase → phase < TWO_PI →
        ∀ x ∈ (SawWave.processAudio ⟨phase, freq⟩ sr n).1, -1 ≤ x ∧ x ≤ 1) := by
  constructor
  · have hall : ∀ p : ℝ, (if p < Real.pi then (1 : ℝ) else -1) = 1
        ∨ (if p < Real.pi then (1 : ℝ) else -1) = -1 := by
      intro p
      split_ifs
      · exact Or.inl rfl
      · exact Or.inr rfl
    simpa [SquareWave.processAudio]
      using oscLoop_out_forall _ (TWO_PI * freq / sr) hall n phase
  · intro hsr hf0 hfs hp0 hp2
    have hinc := inc_bounds freq sr hsr hf0 hfs
    have hout : ∀ p : ℝ, 0 ≤ p → p < TWO_PI →
        -1 ≤ 2 * (p / TWO_PI) - 1 ∧ 2 * (p / TWO_PI) - 1 ≤ 1 := by
      intro p hq0 hq2
      have h2π := two_pi_pos
      have hd0 : 0 ≤ p / TWO_PI := div_nonneg hq0 h2π.le
      have hd1 : p / TWO_PI < 1 := (div_lt_one h2π).mpr hq2
      exact ⟨by linarith, by linarith⟩
    simpa [SawWave.processAudio]
      using oscLoop_out_mem _ _ hinc.1 hinc.2 hout n phase hp0 hp2

/-- C8 (witness): at phase 0, frequency 1, sample rate 4 and 2 frames, the
hypotheses hold, the Square output samples are all `±1` and the Saw output
samples all lie in `[−1, 1]`. -/
theorem square_saw_output_range_witness :
    ((0 : ℝ) < 4 ∧ (0 : ℝ) ≤ 1 ∧ (1 : ℝ) ≤ 4 ∧ (0 : ℝ) ≤ 0 ∧ (0 : ℝ) < TWO_PI)
    ∧ (∀ x ∈ (SquareWave.processAudio ⟨0, 1⟩ 4 2).1, x = 1 ∨ x = -1)
    ∧ (∀ x ∈ (SawWave.processAudio ⟨0, 1⟩ 4 2).1, -1 ≤ x ∧ x ≤ 1) :=
  ⟨⟨by norm_num, by norm_num, by norm_num, le_refl 0, two_pi_pos⟩,
   (square_saw_output_range 0 1 4 2).1,
   (square_saw_output_range 0 1 4 2).2 (by norm_num) (by norm_num) (by norm_num)
     (le_refl 0) two_pi_pos⟩

end DearJack
